import Mathlib

set_option maxRecDepth 8000

/-!
Shallow embedding of `src/view_dataset.py` (MotionExpert repository).

The script loads a pickled list of dict records and prints a report:
header banner, basic info, schema of the first record, statistics
(motion-type distribution, sequence lengths, label counts), per-sample
previews, and a tips footer.  `save_dataset_to_json` converts the dataset
to a JSON-serializable structure, replacing tensors by summary objects.

Modelling choices:
  - a Python value appearing in a record is `Value`: a torch tensor is
    carried as its shape, dtype string and flattened element list (elements
    as exact rationals standing for the floats); lists of strings, ints,
    floats and strings cover the other observed field kinds;
  - a record (Python dict) is an association list `Record` with first-key
    lookup; insertion order is the list order, matching dict iteration;
  - each `print` call of the script becomes one constructor of `Line`
    carrying the dynamic payload of the printed f-string, so the report is
    a `List Line`; purely decorative text stays inside the constructor
    name; a standalone `print()` becomes `Line.blank`;
  - `pickle.load` is modelled by passing `Except String (List Record)`
    into `view_pkl_dataset`: `Except.error e` is the caught exception with
    message `e` (source lines 26-31).
-/

/-- A Python value stored in a record field, as observed by the script. -/
inductive Value where
  | tensor (shape : List Nat) (dtype : String) (data : List Rat)
  | strlist (xs : List String)
  | vint (n : Int)
  | vfloat (q : Rat)
  | vstr (s : String)
deriving DecidableEq, Repr

/-- A record of the dataset: a Python dict field-name-to-value. -/
abbrev Record := List (String × Value)

/-- Python `key in item` (dict membership). -/
def Record.hasKey (item : Record) (k : String) : Bool :=
  item.any fun p => decide (p.1 = k)

/-- Dict lookup returning an option (first matching key). -/
def Record.find (item : Record) (k : String) : Option Value :=
  (item.find? fun p => decide (p.1 = k)).map fun p => p.2

/-- Python `item.get(k, d)`. -/
def Record.getD (item : Record) (k : String) (d : Value) : Value :=
  (Record.find item k).getD d

/-- Python `type(value).__name__` on the observed value kinds. -/
def Value.typeName : Value → String
  | Value.tensor _ _ _ => "Tensor"
  | Value.strlist _ => "list"
  | Value.vint _ => "int"
  | Value.vfloat _ => "float"
  | Value.vstr _ => "str"

/-- Python `len(value)`: length of a list, first shape entry of a tensor
(`len` of a torch tensor is its size along dimension 0). -/
def Value.pyLen : Value → Nat
  | Value.tensor shape _ _ => shape.headD 0
  | Value.strlist xs => xs.length
  | _ => 0

/-- Python truthiness of a record value as used by the script
(`item['labels']` etc.). -/
def Value.truthy : Value → Bool
  | Value.tensor _ _ data => decide (data.length ≠ 0)
  | Value.strlist xs => decide (xs ≠ [])
  | Value.vint n => decide (n ≠ 0)
  | Value.vfloat q => decide (q ≠ 0)
  | Value.vstr s => decide (s ≠ "")

/-- The integer carried by a value (fields such as `original_seq_len` are
Python ints; other kinds never reach this projection in the script). -/
def Value.intVal : Value → Int
  | Value.vint n => n
  | _ => 0

/-- The string list carried by a value (used for `labels`). -/
def Value.strs : Value → List String
  | Value.strlist xs => xs
  | _ => []

/-- Tensor shape (`value.shape`). -/
def Value.tshape : Value → List Nat
  | Value.tensor shape _ _ => shape
  | _ => []

/-- Minimum of a list of rationals, Python `min` / `tensor.min()`
(0 on the empty list, which the script never queries). -/
def ratListMin : List Rat → Rat
  | [] => 0
  | x :: xs => xs.foldl min x

/-- Maximum of a list of rationals. -/
def ratListMax : List Rat → Rat
  | [] => 0
  | x :: xs => xs.foldl max x

/-- Arithmetic mean of a list of rationals (`tensor.mean()`). -/
def ratListMean (l : List Rat) : Rat :=
  l.sum / (l.length : Rat)

/-- `tensor.min()` over the flattened elements. -/
def Value.tmin : Value → Rat
  | Value.tensor _ _ data => ratListMin data
  | _ => 0

/-- `tensor.max()` over the flattened elements. -/
def Value.tmax : Value → Rat
  | Value.tensor _ _ data => ratListMax data
  | _ => 0

/-- `tensor.mean()` over the flattened elements. -/
def Value.tmean : Value → Rat
  | Value.tensor _ _ data => ratListMean data
  | _ => 0

/-- The kind descriptor printed per field in the schema block
(source lines 47-56): tensor with shape and dtype, list with length,
scalar int/float with its literal value, otherwise the type name. -/
inductive SchemaDescr where
  | tensorD (shape : List Nat) (dtype : String)
  | listD (len : Nat)
  | scalarD (tyname : String) (v : Value)
  | otherD (tyname : String)
deriving DecidableEq, Repr

/-- Branching of source lines 49-56 on the kind of a field value. -/
def describeValue : Value → SchemaDescr
  | Value.tensor shape dtype _ => SchemaDescr.tensorD shape dtype
  | Value.strlist xs => SchemaDescr.listD xs.length
  | Value.vint n => SchemaDescr.scalarD "int" (Value.vint n)
  | Value.vfloat q => SchemaDescr.scalarD "float" (Value.vfloat q)
  | Value.vstr s => SchemaDescr.otherD (Value.typeName (Value.vstr s))

/-- One printed line of `view_pkl_dataset`; each constructor is one
`print` site of the source, carrying the dynamic payload. -/
inductive Line where
  | banner
  | header (path : String)
  | loadError (msg : String)
  | basicHeader
  | datasetType (tyname : String)
  | sampleCount (n : Nat)
  | itemType (tyname : String)
  | blank
  | emptyNotice
  | schemaHeader
  | schemaField (key : String) (d : SchemaDescr)
  | statsHeader
  | motionHeader
  | motionEntry (mt : Value) (count : Nat)
  | seqLenHeader
  | seqLenMin (n : Int)
  | seqLenMax (n : Int)
  | seqLenMean (q : Rat)
  | labelCountHeader
  | labelMin (n : Nat)
  | labelMax (n : Nat)
  | labelMean (q : Rat)
  | sampleHeader (n : Nat)
  | sampleTitle (n : Nat)
  | videoName (v : Value)
  | motionType (v : Value)
  | coordShape (shape : List Nat)
  | coordStats (mn mx mean : Rat)
  | origSeqLen (v : Value)
  | cameraView (v : Value)
  | segmentsHeader
  | segmentEntry (k : String) (v : Value)
  | labelsHeader (n : Nat)
  | labelEntry (i : Nat) (preview : String)
  | labelsMore (n : Nat)
  | augmentedCount (n : Nat)
  | tipHeader
  | tipSave
  | tipMax
deriving DecidableEq, Repr

/-- Source lines 21-23: opening banner with the dataset path. -/
def headerLines (pkl_path : String) : List Line :=
  [Line.banner, Line.header pkl_path, Line.banner]

/-- Source lines 34-38: dataset type, record count and type of record 0
(the string N/A when the dataset is empty), then a blank line. -/
def basicInfoLines (dataset : List Record) : List Line :=
  [Line.basicHeader, Line.datasetType "list", Line.sampleCount dataset.length,
   Line.itemType (if 0 < dataset.length then "dict" else "N/A"), Line.blank]

/-- Source lines 46-57: field schema of the first record. -/
def schemaLines (first_item : Record) : List Line :=
  Line.schemaHeader ::
    (first_item.map fun p => Line.schemaField p.1 (describeValue p.2)) ++ [Line.blank]

/-- Source line 67: `motion_types[mt] = motion_types.get(mt, 0) + 1` on an
insertion-ordered dict, kept as an association list. -/
def bump (m : List (Value × Nat)) (k : Value) : List (Value × Nat) :=
  if m.any fun p => decide (p.1 = k) then
    m.map fun p => if p.1 = k then (p.1, p.2 + 1) else p
  else m ++ [(k, 1)]

/-- Source lines 64-67: the motion-type distribution dict, keyed by
`item.get('motion_type', 'Unknown')`. -/
def motionTypeCounts (dataset : List Record) : List (Value × Nat) :=
  dataset.foldl (fun m item => bump m (Record.getD item "motion_type" (Value.vstr "Unknown"))) []

/-- Source lines 63-70: the motion-type distribution block, printed only
when the FIRST record carries `motion_type`. -/
def motionBlock (first_item : Record) (dataset : List Record) : List Line :=
  if Record.hasKey first_item "motion_type" then
    Line.motionHeader ::
      (motionTypeCounts dataset).map fun p => Line.motionEntry p.1 p.2
  else []

/-- Source lines 74-79: collected sequence lengths, preferring
`original_seq_len`, else `len(item['coordinates'])`, else skipping. -/
def collectSeqLens : List Record → List Int
  | [] => []
  | item :: rest =>
    if Record.hasKey item "original_seq_len" then
      Value.intVal (Record.getD item "original_seq_len" (Value.vint 0)) :: collectSeqLens rest
    else if Record.hasKey item "coordinates" then
      (Value.pyLen (Record.getD item "coordinates" (Value.vint 0)) : Int) :: collectSeqLens rest
    else collectSeqLens rest

/-- Python `min` over a nonempty list of ints (0 on [], never queried). -/
def intListMin : List Int → Int
  | [] => 0
  | x :: xs => xs.foldl min x

/-- Python `max` over a nonempty list of ints. -/
def intListMax : List Int → Int
  | [] => 0
  | x :: xs => xs.foldl max x

/-- `sum(seq_lens)/len(seq_lens)` as an exact rational. -/
def intListMean (l : List Int) : Rat :=
  ((l.map fun n => (n : Rat)).sum) / (l.length : Rat)

/-- Source lines 73-85: the sequence-length statistics block. -/
def seqLenBlock (first_item : Record) (dataset : List Record) : List Line :=
  if Record.hasKey first_item "coordinates" || Record.hasKey first_item "original_seq_len" then
    match collectSeqLens dataset with
    | [] => []
    | x :: xs =>
      [Line.seqLenHeader, Line.seqLenMin (intListMin (x :: xs)),
       Line.seqLenMax (intListMax (x :: xs)), Line.seqLenMean (intListMean (x :: xs))]
  else []

/-- Source line 89 guard: `'labels' in item and item['labels']`. -/
def labelsGate (item : Record) : Bool :=
  match Record.find item "labels" with
  | some v => Value.truthy v
  | none => false

/-- Source line 89: `[len(item['labels']) for item in dataset if 'labels'
in item and item['labels']]`. -/
def labelCounts (dataset : List Record) : List Nat :=
  (dataset.filter labelsGate).map fun item =>
    Value.pyLen (Record.getD item "labels" (Value.vstr ""))

/-- Python `min` over a nonempty list of naturals (0 on [], never queried). -/
def natListMin : List Nat → Nat
  | [] => 0
  | x :: xs => xs.foldl min x

/-- Python `max` over a nonempty list of naturals. -/
def natListMax : List Nat → Nat
  | [] => 0
  | x :: xs => xs.foldl max x

/-- `sum(label_counts)/len(label_counts)` as an exact rational. -/
def natListMean (l : List Nat) : Rat :=
  ((l.map fun n => (n : Rat)).sum) / (l.length : Rat)

/-- Source lines 88-94: the label-count statistics block, gated on the
first record carrying `labels` and the collected counts being nonempty. -/
def labelBlock (first_item : Record) (dataset : List Record) : List Line :=
  if Record.hasKey first_item "labels" then
    match labelCounts dataset with
    | [] => []
    | c :: cs =>
      [Line.labelCountHeader, Line.labelMin (natListMin (c :: cs)),
       Line.labelMax (natListMax (c :: cs)), Line.labelMean (natListMean (c :: cs))]
  else []

/-- Source lines 110-113: coordinate shape and element statistics. -/
def coordLines (item : Record) : List Line :=
  match Record.find item "coordinates" with
  | some v =>
    [Line.coordShape (Value.tshape v),
     Line.coordStats (Value.tmin v) (Value.tmax v) (Value.tmean v)]
  | none => []

/-- Source lines 115-116: original sequence length line, when present. -/
def origSeqLenLines (item : Record) : List Line :=
  match Record.find item "original_seq_len" with
  | some v => [Line.origSeqLen v]
  | none => []

/-- Source lines 118-119: camera view line, when present. -/
def cameraLines (item : Record) : List Line :=
  match Record.find item "camera_view" with
  | some v => [Line.cameraView v]
  | none => []

/-- Source lines 122-124: the nine segment-boundary keys, in order. -/
def segment_keys : List String :=
  ["aligned_start_frame", "aligned_end_frame", "aligned_seq_len",
   "error_start_frame", "error_end_frame", "error_seq_len",
   "gt_start_frame", "gt_end_frame", "gt_seq_len"]

/-- Source line 125: `{k: item[k] for k in segment_keys if k in item}`. -/
def segmentsOf (item : Record) : List (String × Value) :=
  segment_keys.filterMap fun k => (Record.find item k).map fun v => (k, v)

/-- Source lines 126-129: segment block, printed when the dict is nonempty. -/
def segmentBlockLines (item : Record) : List Line :=
  match segmentsOf item with
  | [] => []
  | s :: ss =>
    Line.segmentsHeader :: (s :: ss).map fun p => Line.segmentEntry p.1 p.2

/-- Source line 135: `label[:80] + '...' if len(label) > 80 else label`. -/
def labelPreview (label : String) : String :=
  if 80 < label.length then label.take 80 ++ "..." else label

/-- Source lines 132-138: label previews, gated on `labels` being present
and truthy; first two labels, 1-based enumeration, then a remainder count. -/
def labelPreviewLines (item : Record) : List Line :=
  match Record.find item "labels" with
  | some v =>
    if Value.truthy v then
      Line.labelsHeader (Value.pyLen v) ::
        (((Value.strs v).take 2).enum.map fun p => Line.labelEntry (p.1 + 1) (labelPreview p.2)) ++
        (if 2 < Value.pyLen v then [Line.labelsMore (Value.pyLen v - 2)] else [])
    else []
  | none => []

/-- Source lines 141-142: augmented-labels count, gated on presence and
truthiness. -/
def augmentedLines (item : Record) : List Line :=
  match Record.find item "augmented_labels" with
  | some v => if Value.truthy v then [Line.augmentedCount (Value.pyLen v)] else []
  | none => []

/-- Source lines 106-144: one sample preview.  Video name and motion type
are printed unconditionally via `item.get(k, 'N/A')`. -/
def sampleLines (idx : Nat) (item : Record) : List Line :=
  [Line.sampleTitle (idx + 1),
   Line.videoName (Record.getD item "video_name" (Value.vstr "N/A")),
   Line.motionType (Record.getD item "motion_type" (Value.vstr "N/A"))] ++
  coordLines item ++ origSeqLenLines item ++ cameraLines item ++
  segmentBlockLines item ++ labelPreviewLines item ++ augmentedLines item

/-- Source lines 100-144: the whole preview section,
`for idx in range(min(max_samples, len(dataset)))` over `dataset[idx]`. -/
def previewLines (dataset : List Record) (max_samples : Nat) : List Line :=
  [Line.banner, Line.sampleHeader (min max_samples dataset.length), Line.banner] ++
  ((dataset.take max_samples).enum.flatMap fun p => sampleLines p.1 p.2 ++ [Line.blank])

/-- Source lines 147-151: the tips footer. -/
def tipLines : List Line :=
  [Line.banner, Line.tipHeader, Line.tipSave, Line.tipMax, Line.banner]

/-- The report printed by `view_pkl_dataset` (source lines 12-151); the
load step is passed in as an `Except`: an error aborts after the
diagnostic, an empty dataset aborts after the empty notice. -/
def view_pkl_dataset (pkl_path : String) (load : Except String (List Record))
    (show_details : Bool) (max_samples : Nat) : List Line :=
  headerLines pkl_path ++
  match load with
  | Except.error e => [Line.loadError e]
  | Except.ok dataset =>
    basicInfoLines dataset ++
    match dataset with
    | [] => [Line.emptyNotice]
    | first_item :: rest =>
      schemaLines first_item ++
      (Line.statsHeader ::
        (motionBlock first_item (first_item :: rest) ++
         seqLenBlock first_item (first_item :: rest) ++
         labelBlock first_item (first_item :: rest) ++ [Line.blank])) ++
      (if show_details then previewLines (first_item :: rest) max_samples else []) ++
      tipLines

/-- A value of the JSON export: either a tensor summary object (with
implicit tag `_type: Tensor`) or the original value copied verbatim. -/
inductive JsonVal where
  | tensorSummary (shape : List Nat) (dtype : String) (mn mx mean : Rat)
  | plain (v : Value)
deriving DecidableEq, Repr

/-- Source lines 165-178: field conversion of `save_dataset_to_json`.
Tensors become summary objects; the `list` branch and the fallback branch
of the source both copy the value verbatim. -/
def convertValue : Value → JsonVal
  | Value.tensor shape dtype data =>
    JsonVal.tensorSummary shape dtype (ratListMin data) (ratListMax data) (ratListMean data)
  | v => JsonVal.plain v

/-- Source lines 164-178: conversion of one record. -/
def convertItem (item : Record) : List (String × JsonVal) :=
  item.map fun p => (p.1, convertValue p.2)

/-- Source lines 162-179: the structure written by `save_dataset_to_json`. -/
def save_dataset_to_json (dataset : List Record) : List (List (String × JsonVal)) :=
  dataset.map convertItem

/-- Python `dict.get(k, 0)` on the motion-type counter: value of the first
entry with the given key, 0 when absent. -/
def lookupCount (m : List (Value × Nat)) (k : Value) : Nat :=
  match m with
  | [] => 0
  | p :: rest => if p.1 = k then p.2 else lookupCount rest k

/-- A line of a preview that only the label branches can print. -/
def isLabelLine : Line → Bool
  | Line.labelsHeader _ => true
  | Line.labelEntry _ _ => true
  | Line.labelsMore _ => true
  | Line.augmentedCount _ => true
  | _ => false

/-- A record without `motion_type` (first record of the C1 dataset). -/
def C1_rec0 : Record := [("video_name", Value.vstr "v0")]

/-- A record carrying `motion_type` (second record of the C1 dataset). -/
def C1_rec1 : Record := [("motion_type", Value.vstr "squat")]

/-- Dataset whose first record lacks `motion_type` while a later one has it. -/
def C1_dataset : List Record := [C1_rec0, C1_rec1]

/-- First record of the C2 dataset, carrying `motion_type`. -/
def C2_rec0 : Record := [("motion_type", Value.vstr "jump")]

/-- Second record of the C2 dataset, lacking `motion_type`. -/
def C2_rec1 : Record := [("video_name", Value.vstr "v1")]

/-- Dataset whose distribution block is printed and that contains a record
without `motion_type`. -/
def C2_dataset : List Record := [C2_rec0, C2_rec1]

/-- A previewed record lacking both `video_name` and `motion_type`. -/
def C3_item : Record := [("camera_view", Value.vstr "side")]

/-- A record with `original_seq_len` 5 and a coordinates tensor whose
length (first shape entry) is a different number, 7. -/
def C4_item : Record :=
  [("original_seq_len", Value.vint 5),
   ("coordinates", Value.tensor [7, 3] "torch.float32" (List.replicate 21 0))]

/-- A label string of 81 characters. -/
def C5_label81 : String :=
  "aaaaaaaaaaaaaaaaaaaaaaaaaaaaaaaaaaaaaaaaaaaaaaaaaaaaaaaaaaaaaaaaaaaaaaaaaaaaaaaaa"

/-- Five records with label counts [0, 2, 3, 3, 5]; the first is present
but empty. -/
def C7_first : Record := [("labels", Value.strlist [])]

/-- The five-record dataset of the C7 example. -/
def C7_dataset : List Record :=
  [C7_first,
   [("labels", Value.strlist ["a", "b"])],
   [("labels", Value.strlist ["c", "d", "e"])],
   [("labels", Value.strlist ["f", "g", "h"])],
   [("labels", Value.strlist ["i", "j", "k", "l", "m"])]]

/-- Thirty tensor elements (shape 10 by 3): the integers -7 .. 22, with
minimum -7, maximum 22 and mean 15/2. -/
def C8_data : List Rat :=
  [-7, -6, -5, -4, -3, -2, -1, 0, 1, 2, 3, 4, 5, 6, 7,
   8, 9, 10, 11, 12, 13, 14, 15, 16, 17, 18, 19, 20, 21, 22]

/-- A record mixing non-tensor fields with a (10, 3) tensor field. -/
def C8_record : Record :=
  [("video_name", Value.vstr "clip1"),
   ("labels", Value.strlist ["a", "b"]),
   ("original_seq_len", Value.vint 10),
   ("coordinates", Value.tensor [10, 3] "torch.float32" C8_data)]

/-- A record whose `labels` and `augmented_labels` are present but empty. -/
def C10_item : Record :=
  [("labels", Value.strlist []), ("augmented_labels", Value.strlist []),
   ("video_name", Value.vstr "v")]

/-! Helper lemmas: which constructors each output segment can produce. -/

theorem mem_coordLines {item : Record} {l : Line} (h : l ∈ coordLines item) :
    (∃ s, l = Line.coordShape s) ∨ ∃ a b c, l = Line.coordStats a b c := by
  revert h
  unfold coordLines
  cases Record.find item "coordinates" with
  | none => intro h; simp at h
  | some v =>
    intro h
    simp only [List.mem_cons, List.not_mem_nil, or_false] at h
    rcases h with h | h
    · exact Or.inl ⟨_, h⟩
    · exact Or.inr ⟨_, _, _, h⟩

theorem mem_origSeqLenLines {item : Record} {l : Line} (h : l ∈ origSeqLenLines item) :
    ∃ v, l = Line.origSeqLen v := by
  revert h
  unfold origSeqLenLines
  cases Record.find item "original_seq_len" with
  | none => intro h; simp at h
  | some v =>
    intro h
    simp only [List.mem_cons, List.not_mem_nil, or_false] at h
    exact ⟨_, h⟩

theorem mem_cameraLines {item : Record} {l : Line} (h : l ∈ cameraLines item) :
    ∃ v, l = Line.cameraView v := by
  revert h
  unfold cameraLines
  cases Record.find item "camera_view" with
  | none => intro h; simp at h
  | some v =>
    intro h
    simp only [List.mem_cons, List.not_mem_nil, or_false] at h
    exact ⟨_, h⟩

theorem mem_segmentBlockLines {item : Record} {l : Line} (h : l ∈ segmentBlockLines item) :
    l = Line.segmentsHeader ∨ ∃ k v, l = Line.segmentEntry k v := by
  revert h
  unfold segmentBlockLines
  cases segmentsOf item with
  | nil => intro h; simp at h
  | cons s ss =>
    intro h
    simp only [List.mem_cons, List.mem_map] at h
    rcases h with h | ⟨p, _, h⟩
    · exact Or.inl h
    · exact Or.inr ⟨_, _, h.symm⟩

theorem mem_labelPreviewLines {item : Record} {l : Line} (h : l ∈ labelPreviewLines item) :
    (∃ n, l = Line.labelsHeader n) ∨ (∃ i s, l = Line.labelEntry i s) ∨
      ∃ n, l = Line.labelsMore n := by
  unfold labelPreviewLines at h
  split at h
  · split at h
    · simp only [List.mem_cons, List.mem_append, List.mem_map] at h
      rcases h with (h | h) | h
      · exact Or.inl ⟨_, h⟩
      · rcases h with ⟨p, _, h⟩
        exact Or.inr (Or.inl ⟨_, _, h.symm⟩)
      · split at h
        · simp only [List.mem_cons, List.not_mem_nil, or_false] at h
          exact Or.inr (Or.inr ⟨_, h⟩)
        · exact absurd h (List.not_mem_nil l)
    · exact absurd h (List.not_mem_nil l)
  · exact absurd h (List.not_mem_nil l)

theorem mem_augmentedLines {item : Record} {l : Line} (h : l ∈ augmentedLines item) :
    ∃ n, l = Line.augmentedCount n := by
  unfold augmentedLines at h
  split at h
  · split at h
    · simp only [List.mem_cons, List.not_mem_nil, or_false] at h
      exact ⟨_, h⟩
    · exact absurd h (List.not_mem_nil l)
  · exact absurd h (List.not_mem_nil l)

theorem mem_sampleLines {idx : Nat} {item : Record} {l : Line} (h : l ∈ sampleLines idx item) :
    l = Line.sampleTitle (idx + 1) ∨ (∃ v, l = Line.videoName v) ∨
    (∃ v, l = Line.motionType v) ∨
    (∃ s, l = Line.coordShape s) ∨ (∃ a b c, l = Line.coordStats a b c) ∨
    (∃ v, l = Line.origSeqLen v) ∨ (∃ v, l = Line.cameraView v) ∨
    l = Line.segmentsHeader ∨ (∃ k v, l = Line.segmentEntry k v) ∨
    l ∈ labelPreviewLines item ∨ l ∈ augmentedLines item := by
  unfold sampleLines at h
  simp only [List.mem_append, List.mem_cons, List.not_mem_nil, or_false] at h
  rcases h with ((((((h | h | h) | h) | h) | h) | h) | h) | h
  · exact Or.inl h
  · exact Or.inr (Or.inl ⟨_, h⟩)
  · exact Or.inr (Or.inr (Or.inl ⟨_, h⟩))
  · rcases mem_coordLines h with h | h
    · exact Or.inr (Or.inr (Or.inr (Or.inl h)))
    · exact Or.inr (Or.inr (Or.inr (Or.inr (Or.inl h))))
  · exact Or.inr (Or.inr (Or.inr (Or.inr (Or.inr (Or.inl (mem_origSeqLenLines h))))))
  · exact Or.inr (Or.inr (Or.inr (Or.inr (Or.inr (Or.inr (Or.inl (mem_cameraLines h)))))))
  · rcases mem_segmentBlockLines h with h | h
    · exact Or.inr (Or.inr (Or.inr (Or.inr (Or.inr (Or.inr (Or.inr (Or.inl h)))))))
    · exact Or.inr (Or.inr (Or.inr (Or.inr (Or.inr (Or.inr (Or.inr (Or.inr (Or.inl h))))))))
  · exact Or.inr (Or.inr (Or.inr (Or.inr (Or.inr (Or.inr (Or.inr (Or.inr (Or.inr (Or.inl h)))))))))
  · exact Or.inr (Or.inr (Or.inr (Or.inr (Or.inr (Or.inr (Or.inr (Or.inr (Or.inr (Or.inr h)))))))))

theorem motionHeader_not_mem_sampleLines (idx : Nat) (item : Record) :
    Line.motionHeader ∉ sampleLines idx item := by
  intro hmem
  rcases mem_sampleLines hmem with
    h | ⟨_, h⟩ | ⟨_, h⟩ | ⟨_, h⟩ | ⟨_, _, _, h⟩ | ⟨_, h⟩ | ⟨_, h⟩ | h | ⟨_, _, h⟩ | h | h
  · exact Line.noConfusion h
  · exact Line.noConfusion h
  · exact Line.noConfusion h
  · exact Line.noConfusion h
  · exact Line.noConfusion h
  · exact Line.noConfusion h
  · exact Line.noConfusion h
  · exact Line.noConfusion h
  · exact Line.noConfusion h
  · rcases mem_labelPreviewLines h with ⟨_, h⟩ | ⟨_, _, h⟩ | ⟨_, h⟩ <;>
      exact Line.noConfusion h
  · rcases mem_augmentedLines h with ⟨_, h⟩
    exact Line.noConfusion h

theorem motionHeader_not_mem_previewLines (dataset : List Record) (ms : Nat) :
    Line.motionHeader ∉ previewLines dataset ms := by
  intro h
  unfold previewLines at h
  simp only [List.mem_append, List.mem_cons, List.not_mem_nil, or_false,
    List.mem_flatMap] at h
  rcases h with (h | h | h) | ⟨p, _, h⟩
  · exact Line.noConfusion h
  · exact Line.noConfusion h
  · exact Line.noConfusion h
  · rcases h with h | h
    · exact motionHeader_not_mem_sampleLines _ _ h
    · exact Line.noConfusion h

theorem motionHeader_not_mem_schemaLines (first_item : Record) :
    Line.motionHeader ∉ schemaLines first_item := by
  intro h
  unfold schemaLines at h
  simp only [List.mem_append, List.mem_cons, List.mem_map, List.not_mem_nil,
    or_false] at h
  rcases h with (h | ⟨p, _, h⟩) | h
  · exact Line.noConfusion h
  · exact Line.noConfusion h
  · exact Line.noConfusion h

theorem motionHeader_not_mem_seqLenBlock (first_item : Record) (dataset : List Record) :
    Line.motionHeader ∉ seqLenBlock first_item dataset := by
  intro h
  unfold seqLenBlock at h
  split at h
  · split at h
    · exact absurd h (List.not_mem_nil _)
    · simp only [List.mem_cons, List.not_mem_nil, or_false] at h
      rcases h with h | h | h | h <;> exact Line.noConfusion h
  · exact absurd h (List.not_mem_nil _)

theorem motionHeader_not_mem_labelBlock (first_item : Record) (dataset : List Record) :
    Line.motionHeader ∉ labelBlock first_item dataset := by
  intro h
  unfold labelBlock at h
  split at h
  · split at h
    · exact absurd h (List.not_mem_nil _)
    · simp only [List.mem_cons, List.not_mem_nil, or_false] at h
      rcases h with h | h | h | h <;> exact Line.noConfusion h
  · exact absurd h (List.not_mem_nil _)

theorem motionHeader_mem_motionBlock (first_item : Record) (dataset : List Record) :
    Line.motionHeader ∈ motionBlock first_item dataset ↔
      Record.hasKey first_item "motion_type" = true := by
  unfold motionBlock
  by_cases hk : Record.hasKey first_item "motion_type" = true
  · simp [hk]
  · simp [hk]

/-! Counting lemmas for the motion-type distribution. -/

theorem lookupCount_map_update_ne (m : List (Value × Nat)) (k0 k : Value) (hne : ¬ k = k0) :
    lookupCount (m.map fun q => if q.1 = k0 then (q.1, q.2 + 1) else q) k =
      lookupCount m k := by
  induction m with
  | nil => rfl
  | cons p m ih =>
    by_cases hp0 : p.1 = k0
    · have hpk : ¬ p.1 = k := fun hh => hne (hh ▸ hp0)
      have hmap : (p :: m).map (fun q => if q.1 = k0 then (q.1, q.2 + 1) else q) =
          (p.1, p.2 + 1) :: m.map (fun q => if q.1 = k0 then (q.1, q.2 + 1) else q) := by
        rw [List.map_cons, if_pos hp0]
      rw [hmap]
      show (if p.1 = k then p.2 + 1
            else lookupCount (m.map fun q => if q.1 = k0 then (q.1, q.2 + 1) else q) k) =
          if p.1 = k then p.2 else lookupCount m k
      rw [if_neg hpk, if_neg hpk]
      exact ih
    · have hmap : (p :: m).map (fun q => if q.1 = k0 then (q.1, q.2 + 1) else q) =
          p :: m.map (fun q => if q.1 = k0 then (q.1, q.2 + 1) else q) := by
        rw [List.map_cons, if_neg hp0]
      rw [hmap]
      show (if p.1 = k then p.2
            else lookupCount (m.map fun q => if q.1 = k0 then (q.1, q.2 + 1) else q) k) =
          if p.1 = k then p.2 else lookupCount m k
      by_cases hpk : p.1 = k
      · rw [if_pos hpk, if_pos hpk]
      · rw [if_neg hpk, if_neg hpk]
        exact ih

theorem lookupCount_map_update_self (m : List (Value × Nat)) (k : Value)
    (hany : (m.any fun q => decide (q.1 = k)) = true) :
    lookupCount (m.map fun q => if q.1 = k then (q.1, q.2 + 1) else q) k =
      lookupCount m k + 1 := by
  induction m with
  | nil => exact absurd hany (by simp)
  | cons p m ih =>
    by_cases hp : p.1 = k
    · have hmap : (p :: m).map (fun q => if q.1 = k then (q.1, q.2 + 1) else q) =
          (p.1, p.2 + 1) :: m.map (fun q => if q.1 = k then (q.1, q.2 + 1) else q) := by
        rw [List.map_cons, if_pos hp]
      rw [hmap]
      show (if p.1 = k then p.2 + 1
            else lookupCount (m.map fun q => if q.1 = k then (q.1, q.2 + 1) else q) k) =
          (if p.1 = k then p.2 else lookupCount m k) + 1
      rw [if_pos hp, if_pos hp]
    · have hany2 : (m.any fun q => decide (q.1 = k)) = true := by
        simpa [List.any_cons, hp] using hany
      have hmap : (p :: m).map (fun q => if q.1 = k then (q.1, q.2 + 1) else q) =
          p :: m.map (fun q => if q.1 = k then (q.1, q.2 + 1) else q) := by
        rw [List.map_cons, if_neg hp]
      rw [hmap]
      show (if p.1 = k then p.2
            else lookupCount (m.map fun q => if q.1 = k then (q.1, q.2 + 1) else q) k) =
          (if p.1 = k then p.2 else lookupCount m k) + 1
      rw [if_neg hp, if_neg hp]
      exact ih hany2

theorem lookupCount_append_one_ne (m : List (Value × Nat)) (k0 k : Value) (hne : ¬ k = k0) :
    lookupCount (m ++ [(k0, 1)]) k = lookupCount m k := by
  induction m with
  | nil =>
    show (if k0 = k then 1 else lookupCount [] k) = lookupCount [] k
    rw [if_neg fun hh => hne hh.symm]
  | cons p m ih =>
    show (if p.1 = k then p.2 else lookupCount (m ++ [(k0, 1)]) k) =
        if p.1 = k then p.2 else lookupCount m k
    by_cases hpk : p.1 = k
    · rw [if_pos hpk, if_pos hpk]
    · rw [if_neg hpk, if_neg hpk]
      exact ih

theorem lookupCount_append_one_self (m : List (Value × Nat)) (k : Value)
    (hnone : (m.any fun q => decide (q.1 = k)) = false) :
    lookupCount (m ++ [(k, 1)]) k = lookupCount m k + 1 := by
  induction m with
  | nil =>
    show (if k = k then 1 else lookupCount [] k) = lookupCount [] k + 1
    rw [if_pos rfl]
    rfl
  | cons p m ih =>
    have hsplit := hnone
    simp only [List.any_cons, Bool.or_eq_false_iff, decide_eq_false_iff_not] at hsplit
    obtain ⟨hp, h2⟩ := hsplit
    show (if p.1 = k then p.2 else lookupCount (m ++ [(k, 1)]) k) =
        (if p.1 = k then p.2 else lookupCount m k) + 1
    rw [if_neg hp, if_neg hp]
    exact ih h2

theorem lookupCount_bump_self (m : List (Value × Nat)) (k : Value) :
    lookupCount (bump m k) k = lookupCount m k + 1 := by
  unfold bump
  by_cases hany : (m.any fun p => decide (p.1 = k)) = true
  · rw [if_pos hany]
    exact lookupCount_map_update_self m k hany
  · rw [if_neg hany]
    refine lookupCount_append_one_self m k ?_
    revert hany
    cases m.any fun q => decide (q.1 = k) <;> simp

theorem lookupCount_bump_ne (m : List (Value × Nat)) (k0 k : Value) (hne : ¬ k = k0) :
    lookupCount (bump m k0) k = lookupCount m k := by
  unfold bump
  split
  · exact lookupCount_map_update_ne m k0 k hne
  · exact lookupCount_append_one_ne m k0 k hne

theorem lookupCount_foldl_bump (l : List Record) (acc : List (Value × Nat)) (k : Value) :
    lookupCount
      (l.foldl (fun m item => bump m (Record.getD item "motion_type" (Value.vstr "Unknown"))) acc) k =
    lookupCount acc k +
      (l.filter fun item =>
        decide (Record.getD item "motion_type" (Value.vstr "Unknown") = k)).length := by
  induction l generalizing acc with
  | nil => simp
  | cons item l ih =>
    simp only [List.foldl_cons, List.filter_cons]
    rw [ih]
    by_cases hk : Record.getD item "motion_type" (Value.vstr "Unknown") = k
    · rw [hk, lookupCount_bump_self]
      simp [hk]
      omega
    · rw [lookupCount_bump_ne _ _ _ fun hh => hk hh.symm]
      simp [hk]

/-! Claim theorems. -/

/-- C1 counterexample: in a dataset whose first record lacks `motion_type`
while the second record carries it, the motion-type distribution block is
absent from the report, refuting the claim that the block is printed
whenever at least one record carries the field. -/
theorem C1_counterexample :
    C1_rec1 ∈ C1_dataset ∧ Record.hasKey C1_rec1 "motion_type" = true ∧
    Line.motionHeader ∉
      view_pkl_dataset "dataset/BX_test.pkl" (Except.ok C1_dataset) true 3 := by
  refine ⟨by decide, by decide, by decide⟩

/-- C1 (amended): the motion-type category-distribution block is printed
if and only if the FIRST record of the dataset carries the `motion_type`
field; in particular it is absent whenever the first record lacks the
field, even if a later record carries it. -/
theorem C1_theorem (path : String) (first_item : Record) (rest : List Record)
    (sd : Bool) (ms : Nat) :
    Line.motionHeader ∈ view_pkl_dataset path (Except.ok (first_item :: rest)) sd ms ↔
      Record.hasKey first_item "motion_type" = true := by
  have h3 := motionHeader_not_mem_schemaLines first_item
  have h4 := motionHeader_not_mem_seqLenBlock first_item (first_item :: rest)
  have h5 := motionHeader_not_mem_labelBlock first_item (first_item :: rest)
  have h6 := motionHeader_not_mem_previewLines (first_item :: rest) ms
  rw [← motionHeader_mem_motionBlock first_item (first_item :: rest)]
  cases sd <;>
    simp [view_pkl_dataset, headerLines, basicInfoLines, tipLines, h3, h4, h5, h6]

/-- C2 counterexample: in a dataset whose block is printed (first record
has `motion_type`) and whose second record lacks the field, the lacking
record is counted: the report contains a category line for the substitute
category Unknown with count 1, refuting the claim that such records
contribute nothing. -/
theorem C2_counterexample :
    Record.hasKey C2_rec1 "motion_type" = false ∧
    Line.motionHeader ∈
      view_pkl_dataset "dataset/BX_test.pkl" (Except.ok C2_dataset) true 3 ∧
    Line.motionEntry (Value.vstr "Unknown") 1 ∈
      view_pkl_dataset "dataset/BX_test.pkl" (Except.ok C2_dataset) true 3 := by
  refine ⟨by decide, by decide, by decide⟩

/-- C2 (amended): in the motion-type distribution, every record
contributes under the key `item.get('motion_type', 'Unknown')`: the count
stored for a category equals the number of records whose `motion_type`
(defaulting to the substitute category Unknown when the field is absent)
equals that category; records lacking the field are counted under
Unknown rather than skipped. -/
theorem C2_theorem (dataset : List Record) (k : Value) :
    lookupCount (motionTypeCounts dataset) k =
      (dataset.filter fun item =>
        decide (Record.getD item "motion_type" (Value.vstr "Unknown") = k)).length := by
  unfold motionTypeCounts
  simpa [lookupCount] using lookupCount_foldl_bump dataset [] k

/-- C3 counterexample: a previewed record lacking both `video_name` and
`motion_type` still produces a video-name line and a motion-type line
(with the substitute payload N/A), refuting the claim that no output line
is produced for an absent field. -/
theorem C3_counterexample :
    Record.hasKey C3_item "video_name" = false ∧
    Record.hasKey C3_item "motion_type" = false ∧
    Line.videoName (Value.vstr "N/A") ∈ sampleLines 0 C3_item ∧
    Line.motionType (Value.vstr "N/A") ∈ sampleLines 0 C3_item ∧
    Line.videoName (Value.vstr "N/A") ∈
      view_pkl_dataset "dataset/BX_test.pkl" (Except.ok [C3_item]) true 3 := by
  refine ⟨by decide, by decide, by decide, by decide, by decide⟩

/-- C3 (amended): the sample previewer prints the video-name line and the
motion-type line for every previewed record, with payload
`item.get(field, 'N/A')`, i.e. the substitute string N/A when the field is
absent. -/
theorem C3_theorem (idx : Nat) (item : Record) :
    Line.videoName (Record.getD item "video_name" (Value.vstr "N/A")) ∈
      sampleLines idx item ∧
    Line.motionType (Record.getD item "motion_type" (Value.vstr "N/A")) ∈
      sampleLines idx item := by
  constructor <;> (unfold sampleLines; simp)

/-- C6: for an empty dataset the report is exactly the banner, the basic
info block, and the empty-dataset notice: no schema enumeration, no
statistics, no previews, no tips footer, and (the function being total) no
exception. -/
theorem C6_theorem (path : String) (sd : Bool) (ms : Nat) :
    view_pkl_dataset path (Except.ok []) sd ms =
      [Line.banner, Line.header path, Line.banner, Line.basicHeader,
       Line.datasetType "list", Line.sampleCount 0, Line.itemType "N/A",
       Line.blank, Line.emptyNotice] := rfl

/-- C9: when the load step fails with any message, the report is exactly
the banner followed by the diagnostic line carrying the underlying
message: no further output, and the function returns normally (it is
total), aborting only this inspection. -/
theorem C9_theorem (path msg : String) (sd : Bool) (ms : Nat) :
    view_pkl_dataset path (Except.error msg) sd ms =
      [Line.banner, Line.header path, Line.banner, Line.loadError msg] := rfl

theorem collectSeqLens_all_orig (l : List Record)
    (hall : ∀ item ∈ l, Record.hasKey item "original_seq_len" = true) :
    collectSeqLens l =
      l.map fun item => Value.intVal (Record.getD item "original_seq_len" (Value.vint 0)) := by
  induction l with
  | nil => rfl
  | cons item l ih =>
    have h1 : Record.hasKey item "original_seq_len" = true :=
      hall item (List.mem_cons_self item l)
    have ih2 := ih fun i hi => hall i (List.mem_cons_of_mem _ hi)
    unfold collectSeqLens
    rw [if_pos h1, ih2, List.map_cons]

/-- C4: when every record of a (nonempty) dataset carries
`original_seq_len`, the collected sequence lengths are exactly those
values (the length of `coordinates` is never consulted), and the printed
min, max and arithmetic mean are computed over exactly those values. -/
theorem C4_theorem (first_item : Record) (rest : List Record)
    (hall : ∀ item ∈ first_item :: rest, Record.hasKey item "original_seq_len" = true) :
    collectSeqLens (first_item :: rest) =
      ((first_item :: rest).map fun item =>
        Value.intVal (Record.getD item "original_seq_len" (Value.vint 0))) ∧
    seqLenBlock first_item (first_item :: rest) =
      [Line.seqLenHeader,
       Line.seqLenMin (intListMin ((first_item :: rest).map fun item =>
         Value.intVal (Record.getD item "original_seq_len" (Value.vint 0)))),
       Line.seqLenMax (intListMax ((first_item :: rest).map fun item =>
         Value.intVal (Record.getD item "original_seq_len" (Value.vint 0)))),
       Line.seqLenMean (intListMean ((first_item :: rest).map fun item =>
         Value.intVal (Record.getD item "original_seq_len" (Value.vint 0))))] := by
  have hc := collectSeqLens_all_orig _ hall
  refine ⟨hc, ?_⟩
  have hkey : Record.hasKey first_item "original_seq_len" = true :=
    hall first_item (List.mem_cons_self _ _)
  have hgate : (Record.hasKey first_item "coordinates" ||
      Record.hasKey first_item "original_seq_len") = true := by
    rw [hkey, Bool.or_true]
  unfold seqLenBlock
  rw [if_pos hgate, hc, List.map_cons]

/-- C4 witness: a single record with original_seq_len 5 and a coordinates
tensor of first dimension 7; the collected lengths are [5], ignoring the
coordinates length. -/
theorem C4_witness :
    (collectSeqLens [C4_item] =
      ([C4_item].map fun item =>
        Value.intVal (Record.getD item "original_seq_len" (Value.vint 0))) ∧
     seqLenBlock C4_item [C4_item] =
      [Line.seqLenHeader,
       Line.seqLenMin (intListMin ([C4_item].map fun item =>
         Value.intVal (Record.getD item "original_seq_len" (Value.vint 0)))),
       Line.seqLenMax (intListMax ([C4_item].map fun item =>
         Value.intVal (Record.getD item "original_seq_len" (Value.vint 0)))),
       Line.seqLenMean (intListMean ([C4_item].map fun item =>
         Value.intVal (Record.getD item "original_seq_len" (Value.vint 0))))]) ∧
    collectSeqLens [C4_item] = [5] :=
  ⟨C4_theorem C4_item [] (by decide), by decide⟩

/-- C5: a label longer than 80 characters is rendered as its first 80
characters followed by the ellipsis marker, a label of at most 80
characters (hence also one of exactly 80) is rendered unmodified, and the
rendered preview is what the sample previewer prints in the label entry
line. -/
theorem C5_theorem (label : String) :
    (80 < label.length → labelPreview label = label.take 80 ++ "...") ∧
    (label.length ≤ 80 → labelPreview label = label) ∧
    Line.labelEntry 1 (labelPreview label) ∈
      sampleLines 0 [("labels", Value.strlist [label])] := by
  refine ⟨?_, ?_, ?_⟩
  · intro h
    unfold labelPreview
    rw [if_pos h]
  · intro h
    unfold labelPreview
    rw [if_neg (by omega)]
  · have hs : sampleLines 0 [("labels", Value.strlist [label])] =
        [Line.sampleTitle 1, Line.videoName (Value.vstr "N/A"),
         Line.motionType (Value.vstr "N/A"), Line.labelsHeader 1,
         Line.labelEntry 1 (labelPreview label)] := rfl
    rw [hs]
    simp

/-- C5 witness: a concrete 81-character label is truncated. -/
theorem C5_witness : labelPreview C5_label81 = C5_label81.take 80 ++ "..." :=
  (C5_theorem C5_label81).1 (by decide)

/-- C7: on five records with label counts [0, 2, 3, 3, 5] (the first
present but empty), the collected counts are [2, 3, 3, 5] — the empty one
contributes nothing — and the printed block reports min 2, max 5 and mean
13/4 = 3.25 over the four non-empty records. -/
theorem C7_theorem :
    labelCounts C7_dataset = [2, 3, 3, 5] ∧
    labelBlock C7_first C7_dataset =
      [Line.labelCountHeader, Line.labelMin 2, Line.labelMax 5,
       Line.labelMean (13 / 4)] := by
  have hc : labelCounts C7_dataset = [2, 3, 3, 5] := by decide
  refine ⟨hc, ?_⟩
  unfold labelBlock
  rw [if_pos (by decide : Record.hasKey C7_first "labels" = true), hc]
  have h1 : natListMin [2, 3, 3, 5] = 2 := by decide
  have h2 : natListMax [2, 3, 3, 5] = 5 := by decide
  have h3 : natListMean [2, 3, 3, 5] = 13 / 4 := by
    norm_num [natListMean]
  show [Line.labelCountHeader, Line.labelMin (natListMin [2, 3, 3, 5]),
        Line.labelMax (natListMax [2, 3, 3, 5]),
        Line.labelMean (natListMean [2, 3, 3, 5])] = _
  rw [h1, h2, h3]

/-- C8: in the JSON export, every non-tensor field value is copied
verbatim into the converted record, and the summary for a concrete (10, 3)
tensor with 30 elements carries the shape [10, 3], the dtype name and the
true min -7, max 22 and mean 15/2 reduced over all 30 elements. -/
theorem C8_theorem :
    (∀ (item : Record) (k : String) (v : Value), (k, v) ∈ item →
      (∀ s d t, ¬ v = Value.tensor s d t) →
      (k, JsonVal.plain v) ∈ convertItem item) ∧
    convertValue (Value.tensor [10, 3] "torch.float32" C8_data) =
      JsonVal.tensorSummary [10, 3] "torch.float32" (-7) 22 (15 / 2) ∧
    C8_data.length = ([10, 3] : List Nat).prod := by
  refine ⟨?_, ?_, by decide⟩
  · intro item k v hkv hnt
    have hcv : convertValue v = JsonVal.plain v := by
      cases v with
      | tensor s d t => exact absurd rfl (hnt s d t)
      | strlist xs => rfl
      | vint n => rfl
      | vfloat q => rfl
      | vstr s => rfl
    unfold convertItem
    refine List.mem_map.mpr ⟨(k, v), hkv, ?_⟩
    show (k, convertValue v) = (k, JsonVal.plain v)
    rw [hcv]
  · have h1 : ratListMin C8_data = -7 := by decide
    have h2 : ratListMax C8_data = 22 := by decide
    have h3 : ratListMean C8_data = 15 / 2 := by
      norm_num [ratListMean, C8_data]
    show JsonVal.tensorSummary [10, 3] "torch.float32" (ratListMin C8_data)
        (ratListMax C8_data) (ratListMean C8_data) = _
    rw [h1, h2, h3]

/-- C8 witness: a concrete non-tensor field of a concrete record is copied
verbatim by the conversion. -/
theorem C8_witness :
    ("video_name", JsonVal.plain (Value.vstr "clip1")) ∈ convertItem C8_record :=
  C8_theorem.1 C8_record "video_name" (Value.vstr "clip1") (by decide)
    fun s d t h => Value.noConfusion h

theorem no_label_lines_of_empty {idx : Nat} {item : Record}
    (hl : labelPreviewLines item = []) (ha : augmentedLines item = []) :
    ∀ l ∈ sampleLines idx item, isLabelLine l = false := by
  intro l hmem
  rcases mem_sampleLines hmem with
    h | ⟨_, h⟩ | ⟨_, h⟩ | ⟨_, h⟩ | ⟨_, _, _, h⟩ | ⟨_, h⟩ | ⟨_, h⟩ | h | ⟨_, _, h⟩ | h | h
  · rw [h]; rfl
  · rw [h]; rfl
  · rw [h]; rfl
  · rw [h]; rfl
  · rw [h]; rfl
  · rw [h]; rfl
  · rw [h]; rfl
  · rw [h]; rfl
  · rw [h]; rfl
  · rw [hl] at h
    exact absurd h (List.not_mem_nil _)
  · rw [ha] at h
    exact absurd h (List.not_mem_nil _)

/-- C10: for a previewed record whose `labels` and `augmented_labels`
fields are present but empty, the preview contains no labels header, no
label entry, no remainder count and no augmented-labels count line:
presence alone is not sufficient, the value must be non-empty. -/
theorem C10_theorem (idx : Nat) (item : Record)
    (h1 : Record.find item "labels" = some (Value.strlist []))
    (h2 : Record.find item "augmented_labels" = some (Value.strlist [])) :
    (∀ n, Line.labelsHeader n ∉ sampleLines idx item) ∧
    (∀ i s, Line.labelEntry i s ∉ sampleLines idx item) ∧
    (∀ n, Line.labelsMore n ∉ sampleLines idx item) ∧
    (∀ n, Line.augmentedCount n ∉ sampleLines idx item) := by
  have hl : labelPreviewLines item = [] := by
    unfold labelPreviewLines
    rw [h1]
    rfl
  have ha : augmentedLines item = [] := by
    unfold augmentedLines
    rw [h2]
    rfl
  refine ⟨fun n hm => ?_, fun i s hm => ?_, fun n hm => ?_, fun n hm => ?_⟩ <;>
  · have hfalse := no_label_lines_of_empty hl ha _ hm
    simp [isLabelLine] at hfalse

/-- C10 witness: a concrete record with empty `labels` and
`augmented_labels` produces no labels-header line. -/
theorem C10_witness : Line.labelsHeader 0 ∉ sampleLines 0 C10_item :=
  (C10_theorem 0 C10_item rfl rfl).1 0
